import Mathlib

/-!
Verification of the MDU Looking Glass outage ingestion-and-reconciliation
pipeline, embedded from process_property_outages_db.py,
track_ongoing_outages.py and api_server.py.

Modelling conventions:

* Timestamps are integers (seconds).  The scripts store timestamps as TEXT
  and the SQL compares the stored values; the model compares the integer
  values that those stored texts denote.
* Surrogate keys: property_id, shelf_id and router_id are AUTOINCREMENT
  integers in bijection with the UNIQUE property_name, shelf_name and
  router_name columns of their rows (create_database_schema), so the model
  keys those rows by their name column; foreign-key references to those ids
  are replaced by the corresponding name.  network_id is a natural key
  supplied by the feed and is kept as is.  ongoing_outage_id is used by the
  source only to delete or update rows that were found by a
  (network_id, wan_down_start) lookup; since primary keys are unique those
  statements are modelled as key-based filter/map operations.
* Enrichment columns that never influence control flow or row counts
  (street addresses, customer names, speed figures, geolocation columns,
  island, last_updated, the slots/pons/saps display strings) are omitted
  from the row types; the source only copies them through.
* SQLite evaluates x / 0 as NULL instead of raising; the model returns
  none.  SQLite FLOAT arithmetic is modelled over the rationals; at the
  ratios the claims probe (7/10, 8/10, 9/10 against the literal 0.8, and
  percentages against 75) the double-precision comparisons of SQLite agree
  with the rational ones, because 8.0/10.0 rounds to exactly the same
  double as the literal 0.8, and 7/10 and 9/10 are strictly separated
  from it.
-/

namespace MduLookingGlass

/-- One record of the network-outages CSV after pandas parsed the
start_time and end_time columns (process_property_outages_db.py,
lines 586-588). -/
structure OutageEvent where
  network_id : Nat
  start_time : Int
  end_time : Int
deriving DecidableEq, Repr

/-- The outage_hour aggregation key: the start time floored to the top of
its hour (line 596, dt.floor with a one-hour frequency). -/
def floor_hour (t : Int) : Int := 3600 * (t.fdiv 3600)

/-- duration in fractional hours:
(end_time - start_time).dt.total_seconds() / 3600 (line 589). -/
def duration_hours (e : OutageEvent) : ℚ :=
  ((e.end_time - e.start_time : Int) : ℚ) / 3600

/-- SQLite semantics of division: x / 0 evaluates to NULL rather than
raising an error. -/
def sqlite_div (x y : ℚ) : Option ℚ := if y = 0 then none else some (x / y)

/-- The HAVING clause of the property-wide query of api_server.py
(get_property_wide_outages, line 928):
CAST(COUNT(DISTINCT nho.network_id) AS FLOAT) / p.total_networks > 0.8.
A NULL ratio (total_networks = 0) fails the comparison, so the group is
not reported. -/
def api_property_wide (networks_with_outages total_networks : Nat) : Bool :=
  match sqlite_div (networks_with_outages : ℚ) (total_networks : ℚ) with
  | none => false
  | some r => decide ((4 : ℚ) / 5 < r)

/-- The batch alerting check of process_outages_to_db (lines 1244-1259):
the WHERE clause keeps only p.total_networks > 0, and the HAVING clause
keeps outage_percentage >= 75 where outage_percentage is
CAST(COUNT(DISTINCT n.network_id) AS FLOAT) / p.total_networks * 100. -/
def batch_property_wide (networks_down total_networks : Nat) : Bool :=
  decide (0 < total_networks) &&
    (match sqlite_div (networks_down : ℚ) (total_networks : ℚ) with
     | none => false
     | some r => decide ((75 : ℚ) ≤ r * 100))

/-- Required columns of the outages CSV (line 576). -/
def required_outage_cols : List String := ["network_id", "start_time", "end_time"]

/-- Required columns of the Eero discovery CSV (line 609). -/
def required_eero_cols : List String := ["MDU Name", "Eero Network ID"]

/-- missing = [col for col in required if col not in columns]
(lines 577 and 610). -/
def missing_cols (required cols : List String) : List String :=
  required.filter (fun c => ¬ cols.contains c)

/-- Outcome of the input-validation phase of process_outages_to_db.
fatalBeforeMutation is the sys.exit(1) at line 581, which happens before
the database connection at line 628, hence before any mutation;
proceedOutagesOnly covers both the no-discovery-file run and the run where
the discovery file is present but missing required columns (lines
608-619), in which the script warns, sets eero_details to None and keeps
processing. -/
inductive RunOutcome where
  | fatalBeforeMutation
  | proceedWithDiscovery
  | proceedOutagesOnly
deriving DecidableEq, Repr

/-- Control flow of the column validation in process_outages_to_db
(lines 575-621): a missing outages column terminates the run before the
database is opened; a missing discovery column only downgrades the run to
outages-only processing. -/
def validate_inputs (outageCols : List String) (discoveryProvided : Bool)
    (discoveryCols : List String) : RunOutcome :=
  if missing_cols required_outage_cols outageCols ≠ [] then
    RunOutcome.fatalBeforeMutation
  else if discoveryProvided then
    if missing_cols required_eero_cols discoveryCols ≠ [] then
      RunOutcome.proceedOutagesOnly
    else
      RunOutcome.proceedWithDiscovery
  else
    RunOutcome.proceedOutagesOnly

/-- One row of the historical outages table (schema lines 146-156). -/
structure OutageRow where
  network_id : Nat
  wan_down_start : Int
  wan_down_end : Option Int
  duration : ℚ
  reason : Option String
deriving DecidableEq, Repr

/-- One row of the ongoing_outages table (schema lines 158-171).  The
schema declares UNIQUE(network_id, wan_down_start). -/
structure OngoingRow where
  network_id : Nat
  wan_down_start : Int
  wan_down_end : Option Int
  reason : Option String
  first_detected : Int
  last_checked : Int
deriving DecidableEq, Repr

/-- The natural key of an ongoing_outages row. -/
def ooKey (r : OngoingRow) : Nat × Int := (r.network_id, r.wan_down_start)

/-- store_ongoing_outage of track_ongoing_outages.py (lines 119-160): look
the (network_id, wan_down_start) key up; if a row exists, update its
wan_down_end, reason and last_checked; otherwise insert a fresh row with
first_detected = last_checked = now.  The source updates the row through
the ongoing_outage_id returned by the lookup; under the schema's
UNIQUE(network_id, wan_down_start) constraint that row is exactly the
key-matching row, so the update is modelled by key. -/
def store_ongoing_outage (tbl : List OngoingRow) (nid : Nat) (st : Int)
    (endT : Option Int) (rsn : Option String) (now : Int) : List OngoingRow :=
  if tbl.any (fun r => r.network_id == nid && r.wan_down_start == st) then
    tbl.map (fun r =>
      if r.network_id == nid && r.wan_down_start == st then
        { r with wan_down_end := endT, reason := rsn, last_checked := now }
      else r)
  else
    tbl ++ [⟨nid, st, endT, rsn, now, now⟩]

/-- remove_resolved_outage of track_ongoing_outages.py (lines 163-182):
DELETE FROM ongoing_outages WHERE network_id = ? AND wan_down_start = ?. -/
def remove_resolved_outage (tbl : List OngoingRow) (nid : Nat) (st : Int) :
    List OngoingRow :=
  tbl.filter (fun r => ! (r.network_id == nid && r.wan_down_start == st))

/-- The join condition of reconcile_ongoing_outages: some historical
outages row has the same network_id and wan_down_start and a non-null
wan_down_end. -/
def matches_closed_outage (outages : List OutageRow) (nid : Nat) (st : Int) : Bool :=
  outages.any (fun o =>
    o.network_id == nid && o.wan_down_start == st && o.wan_down_end.isSome)

/-- reconcile_ongoing_outages of process_property_outages_db.py (lines
237-267): select every ongoing row whose wan_down_end is null that joins a
historical outages row with the same (network_id, wan_down_start) and a
non-null wan_down_end, and delete each selected row (the source deletes
the selected rows one by one through their primary key; with unique
primary keys that is exactly this filter). -/
def reconcile_ongoing_outages (outages : List OutageRow)
    (ongoing : List OngoingRow) : List OngoingRow :=
  ongoing.filter (fun oo =>
    ! (oo.wan_down_end.isNone &&
        matches_closed_outage outages oo.network_id oo.wan_down_start))

/-- One row of the properties table, keyed by the UNIQUE property_name
(schema lines 83-92; island and last_updated omitted). -/
structure PropertyRow where
  property_name : String
  total_networks : Nat
  total_outages : Nat
deriving DecidableEq, Repr

/-- One row of the networks table (schema lines 94-119; enrichment columns
omitted, the property_id foreign key is replaced by the property name). -/
structure NetworkRow where
  network_id : Nat
  property_name : String
  total_outages : Nat
deriving DecidableEq, Repr

/-- One row of property_hourly_outages (schema lines 122-131),
UNIQUE(property, outage_hour). -/
structure PropertyHourlyRow where
  property_name : String
  outage_hour : Int
  total_outage_count : Nat
deriving DecidableEq, Repr

/-- One row of network_hourly_outages (schema lines 134-143),
UNIQUE(network_id, outage_hour). -/
structure NetworkHourlyRow where
  network_id : Nat
  outage_hour : Int
  outage_count : Nat
deriving DecidableEq, Repr

/-- One row of xpon_shelves (schema lines 174-181), keyed by the UNIQUE
shelf_name. -/
structure XponShelfRow where
  shelf_name : String
  total_properties : Nat
  total_networks : Nat
deriving DecidableEq, Repr

/-- One row of router_7x50s (schema lines 184-191), keyed by the UNIQUE
router_name. -/
structure RouterRow where
  router_name : String
  total_properties : Nat
  total_networks : Nat
deriving DecidableEq, Repr

/-- One row of property_xpon_shelves (schema lines 194-205; the slots and
pons display strings are omitted). -/
structure PropertyShelfRow where
  property_name : String
  shelf_name : String
  network_count : Nat
deriving DecidableEq, Repr

/-- One row of property_7x50s (schema lines 208-218; the saps display
string is omitted). -/
structure PropertyRouterRow where
  property_name : String
  router_name : String
  network_count : Nat
deriving DecidableEq, Repr

/-- The relational store created by create_database_schema. -/
structure DbState where
  properties : List PropertyRow
  networks : List NetworkRow
  property_hourly_outages : List PropertyHourlyRow
  network_hourly_outages : List NetworkHourlyRow
  outages : List OutageRow
  ongoing_outages : List OngoingRow
  xpon_shelves : List XponShelfRow
  router_7x50s : List RouterRow
  property_xpon_shelves : List PropertyShelfRow
  property_7x50s : List PropertyRouterRow
deriving DecidableEq, Repr

/-- The store with every table empty. -/
def emptyDb : DbState := ⟨[], [], [], [], [], [], [], [], [], []⟩

/-- clear_existing_data (lines 414-427): DELETE every row of outages, both
rollup tables, both equipment link tables, networks, properties and both
equipment catalogs.  ongoing_outages is not touched. -/
def clear_existing_data (s : DbState) : DbState :=
  { s with
    outages := []
    network_hourly_outages := []
    property_hourly_outages := []
    property_xpon_shelves := []
    property_7x50s := []
    networks := []
    properties := []
    xpon_shelves := []
    router_7x50s := [] }

/-- One record of the Eero discovery CSV (the pandas dropna calls on
MDU Name and Eero Network ID are modelled by requiring both fields;
columns that only feed omitted enrichment fields are left out). -/
structure DiscoveryRow where
  mdu_name : String
  eero_network_id : Nat
  equip_name : Option String
  router_7x50 : Option String
deriving DecidableEq, Repr

/-- The unique property names of the discovery file, processed in sorted
order (line 656: for property_name in sorted(properties)). -/
def property_names (disc : List DiscoveryRow) : List String :=
  List.insertionSort (· ≤ ·) ((disc.map (fun r => r.mdu_name)).dedup)

/-- The unique network ids the discovery file lists under one property
(line 661). -/
def networks_of_property (disc : List DiscoveryRow) (nm : String) : List Nat :=
  (((disc.filter (fun r => r.mdu_name == nm)).map (fun r => r.eero_network_id))).dedup

/-- All unique network ids of the discovery file (line 968). -/
def discovery_ids (disc : List DiscoveryRow) : List Nat :=
  (disc.map (fun r => r.eero_network_id)).dedup

/-- The outage events a property's processing step selects: those whose
network_id is one of the property's networks (line 666). -/
def pevs_of (events : List OutageEvent) (disc : List DiscoveryRow) (nm : String) :
    List OutageEvent :=
  events.filter (fun e => (networks_of_property disc nm).contains e.network_id)

/-- The properties upsert (lines 712-720): ON CONFLICT(property_name)
total_networks is overwritten with the new count and total_outages is
incremented by the new count. -/
def upsert_property (props : List PropertyRow) (nm : String)
    (nNets nOuts : Nat) : List PropertyRow :=
  if props.any (fun p => p.property_name == nm) then
    props.map (fun p =>
      if p.property_name == nm then
        { p with total_networks := nNets, total_outages := p.total_outages + nOuts }
      else p)
  else
    props ++ [⟨nm, nNets, nOuts⟩]

/-- The networks upsert (lines 761-808): ON CONFLICT(network_id)
total_outages is incremented and the enrichment columns (omitted here) are
overwritten; property_id is NOT updated on conflict. -/
def upsert_network (nets : List NetworkRow) (nid : Nat) (pname : String)
    (nOuts : Nat) : List NetworkRow :=
  if nets.any (fun n => n.network_id == nid) then
    nets.map (fun n =>
      if n.network_id == nid then { n with total_outages := n.total_outages + nOuts }
      else n)
  else
    nets ++ [⟨nid, pname, nOuts⟩]

/-- The row a raw outage event is stored as (lines 884-893): the reason
column of the network-outages feed is always null. -/
def outage_row_of (e : OutageEvent) : OutageRow :=
  ⟨e.network_id, e.start_time, some e.end_time, duration_hours e, none⟩

/-- The raw-outages insertion loop (lines 883-893): plain INSERT, one row
per event. -/
def insert_outages (tbl : List OutageRow) (evs : List OutageEvent) : List OutageRow :=
  tbl ++ evs.map outage_row_of

/-- The network_hourly_outages upsert (lines 910-915):
ON CONFLICT(network_id, outage_hour) the count accumulates. -/
def upsert_network_hourly (tbl : List NetworkHourlyRow) (nid : Nat) (hr : Int)
    (cnt : Nat) : List NetworkHourlyRow :=
  if tbl.any (fun r => r.network_id == nid && r.outage_hour == hr) then
    tbl.map (fun r =>
      if r.network_id == nid && r.outage_hour == hr then
        { r with outage_count := r.outage_count + cnt }
      else r)
  else
    tbl ++ [⟨nid, hr, cnt⟩]

/-- The property_hourly_outages upsert (lines 899-904):
ON CONFLICT(property, outage_hour) the count accumulates. -/
def upsert_property_hourly (tbl : List PropertyHourlyRow) (pname : String)
    (hr : Int) (cnt : Nat) : List PropertyHourlyRow :=
  if tbl.any (fun r => r.property_name == pname && r.outage_hour == hr) then
    tbl.map (fun r =>
      if r.property_name == pname && r.outage_hour == hr then
        { r with total_outage_count := r.total_outage_count + cnt }
      else r)
  else
    tbl ++ [⟨pname, hr, cnt⟩]

/-- groupby(['network_id', 'outage_hour']).size() (line 907): the distinct
(network, floored hour) keys of the events, each with the number of events
carrying it. -/
def network_hour_groups (evs : List OutageEvent) : List ((Nat × Int) × Nat) :=
  ((evs.map (fun e => (e.network_id, floor_hour e.start_time))).dedup).map
    (fun k => (k, (evs.filter (fun e =>
      e.network_id == k.1 && floor_hour e.start_time == k.2)).length))

/-- groupby('outage_hour').size() (line 896): the distinct floored hours
of the events, each with the number of events in it. -/
def hour_groups (evs : List OutageEvent) : List (Int × Nat) :=
  ((evs.map (fun e => floor_hour e.start_time)).dedup).map
    (fun h => (h, (evs.filter (fun e => floor_hour e.start_time == h)).length))

/-- The loop of lines 909-915: upsert one network_hourly_outages row per
(network, hour) group. -/
def apply_network_hourly (evs : List OutageEvent) (tbl : List NetworkHourlyRow) :
    List NetworkHourlyRow :=
  (network_hour_groups evs).foldl
    (fun t kc => upsert_network_hourly t kc.1.1 kc.1.2 kc.2) tbl

/-- The loop of lines 898-904: upsert one property_hourly_outages row per
hour group. -/
def apply_property_hourly (pname : String) (evs : List OutageEvent)
    (tbl : List PropertyHourlyRow) : List PropertyHourlyRow :=
  (hour_groups evs).foldl
    (fun t hc => upsert_property_hourly t pname hc.1 hc.2) tbl

/-- parse_ont_name (lines 270-294): split on '-', require at least six
parts with head 'ONT', return (shelf_name, slot, pon). -/
def parse_ont_name (ont : String) : Option (String × String × String) :=
  match ont.splitOn "-" with
  | "ONT" :: shelf :: _ :: slot :: pon :: _ :: _ => some (shelf, slot, pon)
  | _ => none

/-- parse_sap_lag (lines 297-316): strings starting with 'lag-' yield their
first dot-separated part. -/
def parse_sap_lag (sap : String) : Option String :=
  if sap.startsWith "lag-" then (sap.splitOn ".").head? else none

/-- The per-property xPON shelf tally (lines 828-838): one increment per
equipment row whose Equip Name parses; keyed by shelf name. -/
def shelf_counts (rows : List DiscoveryRow) : List (String × Nat) :=
  let parsed := rows.filterMap (fun r =>
    r.equip_name.bind (fun s => (parse_ont_name s).map (fun p => p.1)))
  parsed.dedup.map (fun nm => (nm, (parsed.filter (fun x => x == nm)).length))

/-- The per-property 7x50 router tally (lines 840-851): rows with a
non-null Equip Name and a non-blank 7x50 name, counted per stripped
router name. -/
def router_counts (rows : List DiscoveryRow) : List (String × Nat) :=
  let names := rows.filterMap (fun r =>
    if r.equip_name.isSome then
      r.router_7x50.bind (fun s =>
        let t := s.trim
        if t == "" then none else some t)
    else none)
  names.dedup.map (fun nm => (nm, (names.filter (fun x => x == nm)).length))

/-- INSERT OR IGNORE INTO xpon_shelves (line 855): add the shelf with the
DEFAULT 0 totals when its name is new. -/
def insert_shelf_if_absent (tbl : List XponShelfRow) (nm : String) :
    List XponShelfRow :=
  if tbl.any (fun s => s.shelf_name == nm) then tbl else tbl ++ [⟨nm, 0, 0⟩]

/-- INSERT OR IGNORE INTO router_7x50s (line 869). -/
def insert_router_if_absent (tbl : List RouterRow) (nm : String) :
    List RouterRow :=
  if tbl.any (fun r => r.router_name == nm) then tbl else tbl ++ [⟨nm, 0, 0⟩]

/-- INSERT OR REPLACE INTO property_xpon_shelves (lines 862-865): the
conflicting (property, shelf) row is replaced. -/
def upsert_property_shelf (tbl : List PropertyShelfRow) (pname nm : String)
    (cnt : Nat) : List PropertyShelfRow :=
  (tbl.filter (fun r => ! (r.property_name == pname && r.shelf_name == nm)))
    ++ [⟨pname, nm, cnt⟩]

/-- INSERT OR REPLACE INTO property_7x50s (lines 875-878). -/
def upsert_property_router (tbl : List PropertyRouterRow) (pname nm : String)
    (cnt : Nat) : List PropertyRouterRow :=
  (tbl.filter (fun r => ! (r.property_name == pname && r.router_name == nm)))
    ++ [⟨pname, nm, cnt⟩]

/-- One iteration of the per-property loop of process_outages_to_db in
discovery mode (lines 656-921): upsert the property, upsert its networks
with their outage counts, tally and store its equipment, insert its raw
outages and upsert both hourly rollups.  The ongoing_outages table is not
touched. -/
def process_property (events : List OutageEvent) (disc : List DiscoveryRow)
    (t : DbState) (nm : String) : DbState :=
  let rows := disc.filter (fun r => r.mdu_name == nm)
  let nids := networks_of_property disc nm
  let pevs := pevs_of events disc nm
  { t with
    properties := upsert_property t.properties nm nids.length pevs.length
    networks := nids.foldl (fun ns nid =>
      upsert_network ns nid nm
        ((pevs.filter (fun e => e.network_id == nid)).length)) t.networks
    xpon_shelves := (shelf_counts rows).foldl
      (fun tb p => insert_shelf_if_absent tb p.1) t.xpon_shelves
    property_xpon_shelves := (shelf_counts rows).foldl
      (fun tb p => upsert_property_shelf tb nm p.1 p.2) t.property_xpon_shelves
    router_7x50s := (router_counts rows).foldl
      (fun tb p => insert_router_if_absent tb p.1) t.router_7x50s
    property_7x50s := (router_counts rows).foldl
      (fun tb p => upsert_property_router tb nm p.1 p.2) t.property_7x50s
    outages := insert_outages t.outages pevs
    property_hourly_outages := apply_property_hourly nm pevs t.property_hourly_outages
    network_hourly_outages := apply_network_hourly pevs t.network_hourly_outages }

/-- The whole per-property loop, over the sorted unique property names. -/
def run_discovery_loop (disc : List DiscoveryRow) (events : List OutageEvent)
    (t : DbState) : DbState :=
  (property_names disc).foldl (process_property events disc) t

/-- The equipment statistics UPDATE statements (lines 929-959): recompute
each catalog row's totals from the link tables.  SQL SUM over no rows is
NULL; it is modelled as 0, which affects no claim (the statements change
no row counts). -/
def update_equipment_stats (t : DbState) : DbState :=
  { t with
    xpon_shelves := t.xpon_shelves.map (fun sh =>
      { sh with
        total_properties :=
          (((t.property_xpon_shelves.filter
              (fun r => r.shelf_name == sh.shelf_name)).map
            (fun r => r.property_name)).dedup).length
        total_networks :=
          ((t.property_xpon_shelves.filter
              (fun r => r.shelf_name == sh.shelf_name)).map
            (fun r => r.network_count)).sum })
    router_7x50s := t.router_7x50s.map (fun rt =>
      { rt with
        total_properties :=
          (((t.property_7x50s.filter
              (fun r => r.router_name == rt.router_name)).map
            (fun r => r.property_name)).dedup).length
        total_networks :=
          ((t.property_7x50s.filter
              (fun r => r.router_name == rt.router_name)).map
            (fun r => r.network_count)).sum }) }

/-- The network-removal pass (lines 964-1036): networks present in the
database but absent from the discovery file are deleted together with
their network_hourly_outages and raw outages rows; then every property's
total_networks and total_outages are recomputed from the remaining
networks and outages tables, and properties left without networks are
deleted.  When nothing is to be removed the pass changes nothing. -/
def removal_pass (disc : List DiscoveryRow) (t : DbState) : DbState :=
  let toRemove := (t.networks.map (fun n => n.network_id)).filter
    (fun nid => ! (discovery_ids disc).contains nid)
  if toRemove.isEmpty then t
  else
    let networkHourly' := t.network_hourly_outages.filter
      (fun r => ! toRemove.contains r.network_id)
    let outages' := t.outages.filter (fun o => ! toRemove.contains o.network_id)
    let networks' := t.networks.filter (fun n => ! toRemove.contains n.network_id)
    let properties' := t.properties.map (fun p =>
      { p with
        total_networks :=
          (networks'.filter (fun n => n.property_name == p.property_name)).length
        total_outages :=
          (outages'.filter (fun o => networks'.any (fun n =>
            n.network_id == o.network_id &&
              n.property_name == p.property_name))).length })
    { t with
      network_hourly_outages := networkHourly'
      outages := outages'
      networks := networks'
      properties := properties'.filter (fun p =>
        networks'.any (fun n => n.property_name == p.property_name)) }

/-- A rebuild-mode discovery run of process_outages_to_db: clear every
outage-derived table (line 635), run the per-property loop, reconcile the
ongoing outages against the freshly inserted historical outages (line
925), update the equipment statistics and run the network-removal pass. -/
def process_outages_to_db_rebuild (disc : List DiscoveryRow)
    (events : List OutageEvent) (s : DbState) : DbState :=
  let looped := run_discovery_loop disc events (clear_existing_data s)
  let reconciled := { looped with
    ongoing_outages := reconcile_ongoing_outages looped.outages looped.ongoing_outages }
  removal_pass disc (update_equipment_stats reconciled)

/-- The stored outage_count for a (network, hour) rollup key: the value of
the unique matching network_hourly_outages row, 0 when no row exists. -/
def lookup_network_hourly (tbl : List NetworkHourlyRow) (n : Nat) (h : Int) : Nat :=
  ((tbl.find? (fun r => r.network_id == n && r.outage_hour == h)).map
    (fun r => r.outage_count)).getD 0

/-- The number of outage events of network n whose start time floors to
hour h. -/
def count_key (evs : List OutageEvent) (n : Nat) (h : Int) : Nat :=
  evs.countP (fun e => e.network_id == n && floor_hour e.start_time == h)

/-! Helper lemmas: the batch pipeline reads the ongoing_outages table only
in the reconciliation pass, so every other stage commutes with replacing
that table. -/

lemma process_property_set_ongoing (events : List OutageEvent)
    (disc : List DiscoveryRow) (t : DbState) (x : List OngoingRow) (nm : String) :
    process_property events disc { t with ongoing_outages := x } nm
      = { process_property events disc t nm with ongoing_outages := x } := rfl

lemma foldl_process_property_set_ongoing (events : List OutageEvent)
    (disc : List DiscoveryRow) (names : List String) :
    ∀ (t : DbState) (x : List OngoingRow),
      names.foldl (process_property events disc) { t with ongoing_outages := x }
        = { names.foldl (process_property events disc) t with ongoing_outages := x } := by
  induction names with
  | nil => intro t x; rfl
  | cons nm rest ih =>
    intro t x
    simp only [List.foldl_cons]
    rw [process_property_set_ongoing]
    exact ih _ x

lemma run_discovery_loop_set_ongoing (disc : List DiscoveryRow)
    (events : List OutageEvent) (t : DbState) (x : List OngoingRow) :
    run_discovery_loop disc events { t with ongoing_outages := x }
      = { run_discovery_loop disc events t with ongoing_outages := x } :=
  foldl_process_property_set_ongoing events disc (property_names disc) t x

lemma update_equipment_stats_set_ongoing (t : DbState) (x : List OngoingRow) :
    update_equipment_stats { t with ongoing_outages := x }
      = { update_equipment_stats t with ongoing_outages := x } := rfl

lemma networks_to_remove_set_ongoing (disc : List DiscoveryRow) (t : DbState)
    (x : List OngoingRow) :
    ((({ t with ongoing_outages := x } : DbState).networks.map
        (fun n => n.network_id)).filter
      (fun nid => ! (discovery_ids disc).contains nid))
      = ((t.networks.map (fun n => n.network_id)).filter
        (fun nid => ! (discovery_ids disc).contains nid)) := rfl

lemma removal_pass_set_ongoing (disc : List DiscoveryRow) (t : DbState)
    (x : List OngoingRow) :
    removal_pass disc { t with ongoing_outages := x }
      = { removal_pass disc t with ongoing_outages := x } := by
  unfold removal_pass
  rw [networks_to_remove_set_ongoing]
  by_cases h : ((t.networks.map (fun n => n.network_id)).filter
      (fun nid => ! (discovery_ids disc).contains nid)).isEmpty = true
  · rw [if_pos h, if_pos h]
  · rw [if_neg h, if_neg h]

lemma clear_existing_data_eq (s : DbState) :
    clear_existing_data s = { emptyDb with ongoing_outages := s.ongoing_outages } := rfl

/-- Canonical form of a rebuild-mode discovery run: the outage-derived
tables are a function of the input files alone, and the ongoing_outages
table is the prior one filtered through the reconciliation pass against
the freshly rebuilt historical outages. -/
lemma rebuild_eq (disc : List DiscoveryRow) (events : List OutageEvent) (s : DbState) :
    process_outages_to_db_rebuild disc events s
      = { removal_pass disc (update_equipment_stats
            (run_discovery_loop disc events emptyDb)) with
          ongoing_outages := reconcile_ongoing_outages
            (run_discovery_loop disc events emptyDb).outages s.ongoing_outages } := by
  unfold process_outages_to_db_rebuild
  rw [clear_existing_data_eq, run_discovery_loop_set_ongoing]
  show removal_pass disc (update_equipment_stats
      { run_discovery_loop disc events emptyDb with
        ongoing_outages := reconcile_ongoing_outages
          (run_discovery_loop disc events emptyDb).outages s.ongoing_outages })
    = _
  rw [update_equipment_stats_set_ongoing, removal_pass_set_ongoing]

lemma reconcile_ongoing_outages_idem (o : List OutageRow) (l : List OngoingRow) :
    reconcile_ongoing_outages o (reconcile_ongoing_outages o l)
      = reconcile_ongoing_outages o l := by
  unfold reconcile_ongoing_outages
  rw [List.filter_filter]
  simp only [Bool.and_self]

lemma rebuild_idem (disc : List DiscoveryRow) (events : List OutageEvent) (s : DbState) :
    process_outages_to_db_rebuild disc events (process_outages_to_db_rebuild disc events s)
      = process_outages_to_db_rebuild disc events s := by
  rw [rebuild_eq disc events s, rebuild_eq disc events]
  show ({ removal_pass disc (update_equipment_stats
      (run_discovery_loop disc events emptyDb)) with
    ongoing_outages := reconcile_ongoing_outages
      (run_discovery_loop disc events emptyDb).outages
      (reconcile_ongoing_outages
        (run_discovery_loop disc events emptyDb).outages
        s.ongoing_outages) } : DbState) = _
  rw [reconcile_ongoing_outages_idem]

/-- Claim C3 (counterexample): the only call site with the 0.80 threshold,
the property-wide read query of api_server.py, uses a strict comparator,
so a property with 10 networks of which exactly 8 had an outage in the
hour is NOT classified property-wide: the boundary case 8/10 = 0.80 fails
ratio > 0.8. -/
theorem api_threshold_boundary_counterexample :
    api_property_wide 8 10 = false := by
  norm_num [api_property_wide, sqlite_div]

/-- Claim C3 (amended): with total_networks = 10, the read-query
classifier (threshold 0.80, strict comparator) classifies neither 8 nor 7
distinct outage networks as property-wide, but does classify 9; the batch
alerting call site, whose threshold is 0.75 with a non-strict comparator,
does classify 8 (and not 7). -/
theorem property_wide_threshold_comparators :
    api_property_wide 8 10 = false ∧ api_property_wide 7 10 = false ∧
    api_property_wide 9 10 = true ∧
    batch_property_wide 8 10 = true ∧ batch_property_wide 7 10 = false := by
  refine ⟨?_, ?_, ?_, ?_, ?_⟩ <;>
    norm_num [api_property_wide, batch_property_wide, sqlite_div]

/-- Claim C7: a property with total_networks = 0 is never classified
property-wide and no division error can arise: the batch alerting check
filters such properties out with WHERE total_networks > 0, and in the read
query SQLite evaluates the ratio as NULL, which fails the HAVING
comparison. -/
theorem zero_networks_not_property_wide :
    ∀ networksDown : Nat,
      api_property_wide networksDown 0 = false ∧
      batch_property_wide networksDown 0 = false := by
  intro d
  constructor
  · simp [api_property_wide, sqlite_div]
  · simp [batch_property_wide]

/-- Claim C6 (counterexample): an outages file with all required columns
together with a provided discovery file missing its required columns does
NOT terminate the run: validate_inputs yields proceedOutagesOnly (the
source prints a warning, drops the discovery data and keeps processing,
lines 608-619), not fatalBeforeMutation. -/
theorem discovery_missing_columns_counterexample :
    validate_inputs ["network_id", "start_time", "end_time"] true []
        = RunOutcome.proceedOutagesOnly ∧
      RunOutcome.proceedOutagesOnly ≠ RunOutcome.fatalBeforeMutation := by
  decide

/-- Claim C6 (amended): a required column missing from the OUTAGES file
terminates the run with a fatal error before the database is even opened
(sys.exit(1) at line 581, before the connection at line 628), so before
any mutation; but a required column missing from the DISCOVERY file does
not abort: the run logs a warning and continues processing outages only,
with its database mutations. -/
theorem input_validation_fatal_vs_warn (outageCols discoveryCols : List String) :
    (missing_cols required_outage_cols outageCols ≠ [] →
      ∀ (provided : Bool) (dcols : List String),
        validate_inputs outageCols provided dcols = RunOutcome.fatalBeforeMutation) ∧
    (missing_cols required_outage_cols outageCols = [] →
      missing_cols required_eero_cols discoveryCols ≠ [] →
      validate_inputs outageCols true discoveryCols = RunOutcome.proceedOutagesOnly) := by
  constructor
  · intro h provided dcols
    simp [validate_inputs, h]
  · intro h1 h2
    simp [validate_inputs, h1, h2]

/-- Witness for the amended claim C6, at concrete inputs: an empty outages
header is fatal; a complete outages header with an empty discovery header
proceeds outages-only. -/
theorem input_validation_fatal_vs_warn_witness :
    (missing_cols required_outage_cols [] ≠ [] ∧
      validate_inputs [] true [] = RunOutcome.fatalBeforeMutation) ∧
    (missing_cols required_outage_cols required_outage_cols = [] ∧
      missing_cols required_eero_cols [] ≠ [] ∧
      validate_inputs required_outage_cols true [] = RunOutcome.proceedOutagesOnly) :=
  ⟨⟨by decide, (input_validation_fatal_vs_warn [] []).1 (by decide) true []⟩,
    ⟨by decide, by decide,
      (input_validation_fatal_vs_warn required_outage_cols []).2 (by decide) (by decide)⟩⟩

/-- Claim C4: a rebuild-mode run is idempotent: running it a second time
on the identical input files leaves every table of the store with the same
row count it had after the first run (the second wipe-and-reload
reconstructs the same tables, and the reconciliation pass removes nothing
further from ongoing_outages). -/
theorem rebuild_twice_same_row_counts (disc : List DiscoveryRow)
    (events : List OutageEvent) (s : DbState) :
    (process_outages_to_db_rebuild disc events
        (process_outages_to_db_rebuild disc events s)).properties.length
      = (process_outages_to_db_rebuild disc events s).properties.length ∧
    (process_outages_to_db_rebuild disc events
        (process_outages_to_db_rebuild disc events s)).networks.length
      = (process_outages_to_db_rebuild disc events s).networks.length ∧
    (process_outages_to_db_rebuild disc events
        (process_outages_to_db_rebuild disc events s)).property_hourly_outages.length
      = (process_outages_to_db_rebuild disc events s).property_hourly_outages.length ∧
    (process_outages_to_db_rebuild disc events
        (process_outages_to_db_rebuild disc events s)).network_hourly_outages.length
      = (process_outages_to_db_rebuild disc events s).network_hourly_outages.length ∧
    (process_outages_to_db_rebuild disc events
        (process_outages_to_db_rebuild disc events s)).outages.length
      = (process_outages_to_db_rebuild disc events s).outages.length ∧
    (process_outages_to_db_rebuild disc events
        (process_outages_to_db_rebuild disc events s)).ongoing_outages.length
      = (process_outages_to_db_rebuild disc events s).ongoing_outages.length ∧
    (process_outages_to_db_rebuild disc events
        (process_outages_to_db_rebuild disc events s)).xpon_shelves.length
      = (process_outages_to_db_rebuild disc events s).xpon_shelves.length ∧
    (process_outages_to_db_rebuild disc events
        (process_outages_to_db_rebuild disc events s)).router_7x50s.length
      = (process_outages_to_db_rebuild disc events s).router_7x50s.length ∧
    (process_outages_to_db_rebuild disc events
        (process_outages_to_db_rebuild disc events s)).property_xpon_shelves.length
      = (process_outages_to_db_rebuild disc events s).property_xpon_shelves.length ∧
    (process_outages_to_db_rebuild disc events
        (process_outages_to_db_rebuild disc events s)).property_7x50s.length
      = (process_outages_to_db_rebuild disc events s).property_7x50s.length := by
  rw [rebuild_idem disc events s]
  exact ⟨rfl, rfl, rfl, rfl, rfl, rfl, rfl, rfl, rfl, rfl⟩

/-- Claim C10: the rebuild-mode wipe clears the raw outages, both hourly
rollup tables, both equipment link tables, networks, properties and both
equipment catalogs, but leaves the ongoing_outages table untouched; and
within the whole rebuild run the only change to ongoing_outages is row
removal by the reconciliation pass, so every ongoing row that survives was
present beforehand, unchanged. -/
theorem rebuild_wipe_preserves_ongoing (s : DbState) :
    (clear_existing_data s).ongoing_outages = s.ongoing_outages ∧
    (clear_existing_data s).outages = [] ∧
    (clear_existing_data s).network_hourly_outages = [] ∧
    (clear_existing_data s).property_hourly_outages = [] ∧
    (clear_existing_data s).property_xpon_shelves = [] ∧
    (clear_existing_data s).property_7x50s = [] ∧
    (clear_existing_data s).networks = [] ∧
    (clear_existing_data s).properties = [] ∧
    (clear_existing_data s).xpon_shelves = [] ∧
    (clear_existing_data s).router_7x50s = [] ∧
    (∀ (disc : List DiscoveryRow) (events : List OutageEvent),
      ∀ r ∈ (process_outages_to_db_rebuild disc events s).ongoing_outages,
        r ∈ s.ongoing_outages) := by
  refine ⟨rfl, rfl, rfl, rfl, rfl, rfl, rfl, rfl, rfl, rfl, ?_⟩
  intro disc events r hr
  rw [rebuild_eq] at hr
  exact (List.mem_filter.mp hr).1

/-! Helper lemmas for the ongoing_outages writers. -/

/-- The update branch of store_ongoing_outage, taken whenever some row
carries the key. -/
lemma store_ongoing_outage_of_any (tbl : List OngoingRow) (nid : Nat) (st : Int)
    (endT : Option Int) (rsn : Option String) (now : Int)
    (h : tbl.any (fun r => r.network_id == nid && r.wan_down_start == st) = true) :
    store_ongoing_outage tbl nid st endT rsn now
      = tbl.map (fun r =>
          if r.network_id == nid && r.wan_down_start == st then
            { r with wan_down_end := endT, reason := rsn, last_checked := now }
          else r) := by
  unfold store_ongoing_outage
  rw [if_pos h]

/-- After a store, every row carrying the stored key holds the stored
wan_down_end and reason. -/
lemma store_ongoing_outage_key_fields (tbl : List OngoingRow) (nid : Nat) (st : Int)
    (endT : Option Int) (rsn : Option String) (now : Int) :
    ∀ r ∈ store_ongoing_outage tbl nid st endT rsn now,
      (r.network_id == nid && r.wan_down_start == st) = true →
      r.wan_down_end = endT ∧ r.reason = rsn := by
  intro r hr hk
  unfold store_ongoing_outage at hr
  by_cases hA : tbl.any (fun x => x.network_id == nid && x.wan_down_start == st) = true
  · rw [if_pos hA] at hr
    obtain ⟨a, ha, hfa⟩ := List.mem_map.mp hr
    by_cases hak : (a.network_id == nid && a.wan_down_start == st) = true
    · rw [if_pos hak] at hfa
      rw [← hfa]
      exact ⟨rfl, rfl⟩
    · rw [if_neg hak] at hfa
      rw [← hfa] at hk
      exact absurd hk hak
  · rw [if_neg hA] at hr
    rcases List.mem_append.mp hr with h | h
    · exact absurd (List.any_eq_true.mpr ⟨r, h, hk⟩) hA
    · have he : r = ⟨nid, st, endT, rsn, now, now⟩ := List.mem_singleton.mp h
      subst he
      exact ⟨rfl, rfl⟩

/-- After a store, some row carries the stored key. -/
lemma store_ongoing_outage_has_key (tbl : List OngoingRow) (nid : Nat) (st : Int)
    (endT : Option Int) (rsn : Option String) (now : Int) :
    (store_ongoing_outage tbl nid st endT rsn now).any
      (fun r => r.network_id == nid && r.wan_down_start == st) = true := by
  unfold store_ongoing_outage
  by_cases hA : tbl.any (fun x => x.network_id == nid && x.wan_down_start == st) = true
  · rw [if_pos hA]
    obtain ⟨a, ha, hak⟩ := List.any_eq_true.mp hA
    refine List.any_eq_true.mpr ⟨_, List.mem_map_of_mem _ ha, ?_⟩
    rw [if_pos hak]
    exact hak
  · rw [if_neg hA]
    refine List.any_eq_true.mpr ⟨⟨nid, st, endT, rsn, now, now⟩, ?_, by simp⟩
    exact List.mem_append.mpr (Or.inr (List.mem_singleton.mpr rfl))

/-- A store never changes the key of a row. -/
lemma store_ongoing_outage_keys_nodup (tbl : List OngoingRow) (nid : Nat) (st : Int)
    (endT : Option Int) (rsn : Option String) (now : Int)
    (h : (tbl.map ooKey).Nodup) :
    ((store_ongoing_outage tbl nid st endT rsn now).map ooKey).Nodup := by
  unfold store_ongoing_outage
  by_cases hA : tbl.any (fun x => x.network_id == nid && x.wan_down_start == st) = true
  · rw [if_pos hA]
    rw [List.map_map]
    have he : (tbl.map (ooKey ∘ fun r =>
        if r.network_id == nid && r.wan_down_start == st then
          { r with wan_down_end := endT, reason := rsn, last_checked := now }
        else r)) = tbl.map ooKey := by
      apply List.map_congr_left
      intro a _
      by_cases hak : (a.network_id == nid && a.wan_down_start == st) = true
      · simp only [Function.comp_apply, if_pos hak]
        rfl
      · simp only [Function.comp_apply, if_neg hak]
    rw [he]
    exact h
  · rw [if_neg hA, List.map_append]
    rw [List.nodup_append]
    refine ⟨h, List.nodup_singleton _, ?_⟩
    intro k hk hk2
    obtain ⟨r, hr, hkey⟩ := List.mem_map.mp hk
    have hks : k = ooKey ⟨nid, st, endT, rsn, now, now⟩ := by
      simpa using hk2
    apply hA
    refine List.any_eq_true.mpr ⟨r, hr, ?_⟩
    have h1 : r.network_id = nid := by
      have := hkey.trans hks
      exact congrArg Prod.fst this
    have h2 : r.wan_down_start = st := by
      have := hkey.trans hks
      exact congrArg Prod.snd this
    simp [h1, h2]

/-- Storing the same live-feed state twice: the second call is a pure map
that only rewrites last_checked on the key row. -/
lemma store_ongoing_outage_twice_eq (tbl : List OngoingRow) (nid : Nat) (st : Int)
    (endT : Option Int) (rsn : Option String) (now1 now2 : Int) :
    store_ongoing_outage (store_ongoing_outage tbl nid st endT rsn now1)
        nid st endT rsn now2
      = (store_ongoing_outage tbl nid st endT rsn now1).map
          (fun r =>
            if r.network_id == nid && r.wan_down_start == st then
              { r with last_checked := now2 }
            else r) := by
  rw [store_ongoing_outage_of_any _ _ _ _ _ _
    (store_ongoing_outage_has_key tbl nid st endT rsn now1)]
  apply List.map_congr_left
  intro a ha
  by_cases hak : (a.network_id == nid && a.wan_down_start == st) = true
  · rw [if_pos hak, if_pos hak]
    obtain ⟨he, hrsn⟩ :=
      store_ongoing_outage_key_fields tbl nid st endT rsn now1 a ha hak
    cases a with
    | mk n s e rs fd lc =>
      cases he
      cases hrsn
      rfl
  · rw [if_neg hak, if_neg hak]

/-- Claim C5: the ongoing_outages writers keep the store free of duplicate
(network_id, wan_down_start) keys, and storing the same live-feed state
twice inserts no second row: the second call is a field update that
changes only last_checked (the wan_down_end and reason it writes are the
values already stored). -/
theorem store_ongoing_outage_unique_and_idempotent (tbl : List OngoingRow)
    (nid : Nat) (st : Int) (endT : Option Int) (rsn : Option String)
    (now1 now2 : Int) :
    ((tbl.map ooKey).Nodup →
      ((store_ongoing_outage tbl nid st endT rsn now1).map ooKey).Nodup) ∧
    store_ongoing_outage (store_ongoing_outage tbl nid st endT rsn now1)
        nid st endT rsn now2
      = (store_ongoing_outage tbl nid st endT rsn now1).map
          (fun r =>
            if r.network_id == nid && r.wan_down_start == st then
              { r with last_checked := now2 }
            else r) ∧
    (store_ongoing_outage (store_ongoing_outage tbl nid st endT rsn now1)
        nid st endT rsn now2).length
      = (store_ongoing_outage tbl nid st endT rsn now1).length := by
  refine ⟨store_ongoing_outage_keys_nodup tbl nid st endT rsn now1,
    store_ongoing_outage_twice_eq tbl nid st endT rsn now1 now2, ?_⟩
  rw [store_ongoing_outage_twice_eq tbl nid st endT rsn now1 now2]
  exact List.length_map _ _

/-- Witness for claim C5 at a concrete store: a table holding one other
key, a first store inserting key (7, 100), and a second store of the same
state. -/
theorem store_ongoing_outage_unique_and_idempotent_witness :
    ((([⟨3, 5, none, none, 0, 0⟩] : List OngoingRow).map ooKey).Nodup) ∧
    ((store_ongoing_outage [⟨3, 5, none, none, 0, 0⟩] 7 100 none none 1).map
      ooKey).Nodup ∧
    store_ongoing_outage
        (store_ongoing_outage [⟨3, 5, none, none, 0, 0⟩] 7 100 none none 1)
        7 100 none none 2
      = (store_ongoing_outage [⟨3, 5, none, none, 0, 0⟩] 7 100 none none 1).map
          (fun r =>
            if r.network_id == 7 && r.wan_down_start == 100 then
              { r with last_checked := 2 }
            else r) :=
  ⟨by decide,
    (store_ongoing_outage_unique_and_idempotent [⟨3, 5, none, none, 0, 0⟩]
      7 100 none none 1 2).1 (by decide),
    (store_ongoing_outage_unique_and_idempotent [⟨3, 5, none, none, 0, 0⟩]
      7 100 none none 1 2).2.1⟩

/-- Claim C1: whenever an open ongoing-outage row (null wan_down_end)
matches a historical outages row with the same (network_id,
wan_down_start) and a non-null wan_down_end, the reconciliation pass
leaves no ongoing row with that key (the schema's UNIQUE(network_id,
wan_down_start) constraint, stated as the Nodup hypothesis, rules out a
second row with the key). -/
theorem reconcile_removes_matched_open_outage (outages : List OutageRow)
    (ongoing : List OngoingRow) (hU : (ongoing.map ooKey).Nodup)
    (oo : OngoingRow) (hmem : oo ∈ ongoing) (hopen : oo.wan_down_end = none)
    (o : OutageRow) (ho : o ∈ outages) (hn : o.network_id = oo.network_id)
    (hs : o.wan_down_start = oo.wan_down_start)
    (hclosed : o.wan_down_end.isSome = true) :
    ∀ r ∈ reconcile_ongoing_outages outages ongoing,
      ¬ (r.network_id = oo.network_id ∧ r.wan_down_start = oo.wan_down_start) := by
  intro r hr hkey
  obtain ⟨hrmem, hpred⟩ := List.mem_filter.mp hr
  have hreq : r = oo := by
    refine List.inj_on_of_nodup_map hU hrmem hmem ?_
    unfold ooKey
    exact Prod.ext hkey.1 hkey.2
  subst hreq
  rw [hopen] at hpred
  simp [matches_closed_outage] at hpred
  have h0 := hpred o ho hn hs
  simp [h0] at hclosed

/-- Witness for claim C1: one closed historical row for key (1, 0), one
open ongoing row with the same key; nothing with that key survives the
reconciliation pass. -/
theorem reconcile_removes_matched_open_outage_witness :
    (([⟨1, 0, none, none, 50, 60⟩] : List OngoingRow).map ooKey).Nodup ∧
    (∀ r ∈ reconcile_ongoing_outages
        [⟨1, 0, some 3600, 1, none⟩]
        [⟨1, 0, none, none, 50, 60⟩],
      ¬ (r.network_id = (1 : Nat) ∧ r.wan_down_start = (0 : Int))) :=
  ⟨by decide,
    reconcile_removes_matched_open_outage
      [⟨1, 0, some 3600, 1, none⟩] [⟨1, 0, none, none, 50, 60⟩]
      (by decide) ⟨1, 0, none, none, 50, 60⟩ (List.mem_singleton.mpr rfl) rfl
      ⟨1, 0, some 3600, 1, none⟩ (List.mem_singleton.mpr rfl) rfl rfl rfl⟩

/-- Claim C9: when the network-removal pass removes a network that the
discovery file no longer lists, every raw outage row and every
network-hourly rollup row of that network is deleted (as is the network
itself); afterwards every surviving property's total_networks and
total_outages equal the counts recomputed from the remaining networks and
outages tables, and every property left without networks is deleted. -/
theorem network_removal_cascade (disc : List DiscoveryRow) (t : DbState)
    (nid : Nat) (hmem : nid ∈ t.networks.map (fun n => n.network_id))
    (habs : ¬ nid ∈ discovery_ids disc) :
    (∀ o ∈ (removal_pass disc t).outages, o.network_id ≠ nid) ∧
    (∀ r ∈ (removal_pass disc t).network_hourly_outages, r.network_id ≠ nid) ∧
    (∀ n ∈ (removal_pass disc t).networks, n.network_id ≠ nid) ∧
    (∀ p ∈ (removal_pass disc t).properties,
      p.total_networks = ((removal_pass disc t).networks.filter
          (fun n => n.property_name == p.property_name)).length ∧
      p.total_outages = ((removal_pass disc t).outages.filter
          (fun o => (removal_pass disc t).networks.any (fun n =>
            n.network_id == o.network_id &&
              n.property_name == p.property_name))).length) ∧
    (∀ p ∈ (removal_pass disc t).properties,
      ∃ n ∈ (removal_pass disc t).networks, n.property_name = p.property_name) := by
  have hrem : nid ∈ (t.networks.map (fun n => n.network_id)).filter
      (fun i => ! (discovery_ids disc).contains i) :=
    List.mem_filter.mpr ⟨hmem, by simp [habs]⟩
  have hne : ((t.networks.map (fun n => n.network_id)).filter
      (fun i => ! (discovery_ids disc).contains i)).isEmpty = false :=
    List.isEmpty_eq_false.mpr (List.ne_nil_of_mem hrem)
  unfold removal_pass
  dsimp only
  rw [hne]
  simp only [Bool.false_eq_true, if_false]
  refine ⟨?_, ?_, ?_, ?_, ?_⟩
  · intro o hof hoe
    have hop := (List.mem_filter.mp hof).2
    rw [hoe] at hop
    simp [habs] at hop
    obtain ⟨x, hx, hxe⟩ := List.mem_map.mp hmem
    exact hop x hx hxe
  · intro r hrf hre
    have hrp := (List.mem_filter.mp hrf).2
    rw [hre] at hrp
    simp [habs] at hrp
    obtain ⟨x, hx, hxe⟩ := List.mem_map.mp hmem
    exact hrp x hx hxe
  · intro n hnf hnn
    have hnp := (List.mem_filter.mp hnf).2
    rw [hnn] at hnp
    simp [habs] at hnp
    obtain ⟨x, hx, hxe⟩ := List.mem_map.mp hmem
    exact hnp x hx hxe
  · intro p hp
    have hp1 := (List.mem_filter.mp hp).1
    obtain ⟨p0, _, hp0⟩ := List.mem_map.mp hp1
    rw [← hp0]
    exact ⟨rfl, rfl⟩
  · intro p hp
    have hp2 := (List.mem_filter.mp hp).2
    obtain ⟨n, hn, hnb⟩ := List.any_eq_true.mp hp2
    exact ⟨n, hn, by simpa using hnb⟩

/-- Witness for claim C9: property P keeps network 1 (one outage and one
rollup row), network 2 disappears from the discovery file, and property Q
loses its only network 3 and is deleted. -/
theorem network_removal_cascade_witness :
    (2 : Nat) ∈ ([⟨1, "P", 1⟩, ⟨2, "P", 1⟩, ⟨3, "Q", 0⟩] :
        List NetworkRow).map (fun n => n.network_id) ∧
    ¬ (2 : Nat) ∈ discovery_ids [⟨"P", 1, none, none⟩] ∧
    (∀ n ∈ (removal_pass [⟨"P", 1, none, none⟩]
        { emptyDb with
          properties := [⟨"P", 2, 2⟩, ⟨"Q", 1, 0⟩]
          networks := [⟨1, "P", 1⟩, ⟨2, "P", 1⟩, ⟨3, "Q", 0⟩]
          network_hourly_outages := [⟨1, 0, 1⟩, ⟨2, 0, 1⟩]
          outages := [] }).networks, n.network_id ≠ 2) ∧
    (∀ p ∈ (removal_pass [⟨"P", 1, none, none⟩]
        { emptyDb with
          properties := [⟨"P", 2, 2⟩, ⟨"Q", 1, 0⟩]
          networks := [⟨1, "P", 1⟩, ⟨2, "P", 1⟩, ⟨3, "Q", 0⟩]
          network_hourly_outages := [⟨1, 0, 1⟩, ⟨2, 0, 1⟩]
          outages := [] }).properties,
      ∃ n ∈ (removal_pass [⟨"P", 1, none, none⟩]
        { emptyDb with
          properties := [⟨"P", 2, 2⟩, ⟨"Q", 1, 0⟩]
          networks := [⟨1, "P", 1⟩, ⟨2, "P", 1⟩, ⟨3, "Q", 0⟩]
          network_hourly_outages := [⟨1, 0, 1⟩, ⟨2, 0, 1⟩]
          outages := [] }).networks, n.property_name = p.property_name) := by
  refine ⟨by decide, by decide, ?_, ?_⟩
  · exact (network_removal_cascade [⟨"P", 1, none, none⟩]
      { emptyDb with
        properties := [⟨"P", 2, 2⟩, ⟨"Q", 1, 0⟩]
        networks := [⟨1, "P", 1⟩, ⟨2, "P", 1⟩, ⟨3, "Q", 0⟩]
        network_hourly_outages := [⟨1, 0, 1⟩, ⟨2, 0, 1⟩]
        outages := [] } 2 (by decide) (by decide)).2.2.1
  · exact (network_removal_cascade [⟨"P", 1, none, none⟩]
      { emptyDb with
        properties := [⟨"P", 2, 2⟩, ⟨"Q", 1, 0⟩]
        networks := [⟨1, "P", 1⟩, ⟨2, "P", 1⟩, ⟨3, "Q", 0⟩]
        network_hourly_outages := [⟨1, 0, 1⟩, ⟨2, 0, 1⟩]
        outages := [] } 2 (by decide) (by decide)).2.2.2.2

/-! Helper lemmas: the outages component of the per-property loop. -/

lemma loop_outages_proj (events : List OutageEvent) (disc : List DiscoveryRow)
    (names : List String) :
    ∀ t : DbState,
      (names.foldl (process_property events disc) t).outages
        = names.foldl (fun ot nm => insert_outages ot (pevs_of events disc nm))
            t.outages := by
  induction names with
  | nil => intro t; rfl
  | cons nm rest ih =>
    intro t
    simp only [List.foldl_cons]
    rw [ih (process_property events disc t nm)]
    rfl

lemma mem_foldl_insert_outages (events : List OutageEvent)
    (disc : List DiscoveryRow) (names : List String) :
    ∀ (ot : List OutageRow) (row : OutageRow),
      row ∈ names.foldl (fun o nm => insert_outages o (pevs_of events disc nm)) ot →
      row ∈ ot ∨ ∃ e : OutageEvent, row = outage_row_of e := by
  induction names with
  | nil => intro ot row h; exact Or.inl h
  | cons nm rest ih =>
    intro ot row h
    simp only [List.foldl_cons] at h
    rcases ih _ row h with h' | h'
    · rcases List.mem_append.mp h' with h2 | h2
      · exact Or.inl h2
      · obtain ⟨e, _, he⟩ := List.mem_map.mp h2
        exact Or.inr ⟨e, he.symm⟩
    · exact h'.elim (fun e he => Or.inr ⟨e, he⟩)

lemma removal_pass_outages_subset (disc : List DiscoveryRow) (X : DbState) :
    ∀ row ∈ (removal_pass disc X).outages, row ∈ X.outages := by
  intro row h
  unfold removal_pass at h
  dsimp only at h
  by_cases hc : ((X.networks.map (fun n => n.network_id)).filter
      (fun i => ! (discovery_ids disc).contains i)).isEmpty = true
  · rw [if_pos hc] at h
    exact h
  · rw [if_neg hc] at h
    exact (List.mem_filter.mp h).1

/-- Claim C8 (amended): every row the pipeline stores in the historical
outages table carries a non-null wan_down_end and a duration exactly equal
to (wan_down_end - wan_down_start) in fractional hours; but end >= start
is NOT enforced anywhere - an input event with end before start is stored
unchanged, with a negative duration. -/
theorem stored_outage_duration_equation (disc : List DiscoveryRow)
    (events : List OutageEvent) (s : DbState) :
    ∀ row ∈ (process_outages_to_db_rebuild disc events s).outages,
      ∃ endv : Int, row.wan_down_end = some endv ∧
        row.duration = ((endv - row.wan_down_start : Int) : ℚ) / 3600 := by
  intro row hrow
  rw [rebuild_eq] at hrow
  have hrow2 : row ∈ (removal_pass disc (update_equipment_stats
      (run_discovery_loop disc events emptyDb))).outages := hrow
  have hrow3 := removal_pass_outages_subset disc _ row hrow2
  have hrow4 : row ∈ (run_discovery_loop disc events emptyDb).outages := hrow3
  unfold run_discovery_loop at hrow4
  rw [loop_outages_proj events disc (property_names disc) emptyDb] at hrow4
  rcases mem_foldl_insert_outages events disc (property_names disc) _ row hrow4 with
    h | ⟨e, he⟩
  · cases h
  · subst he
    exact ⟨e.end_time, rfl, rfl⟩

/-- Witness for the amended claim C8: one event closed after two hours,
stored with duration (7200 - 0) / 3600 hours. -/
theorem stored_outage_duration_equation_witness :
    ∃ endv : Int, (outage_row_of ⟨1, 0, 7200⟩).wan_down_end = some endv ∧
      (outage_row_of ⟨1, 0, 7200⟩).duration
        = ((endv - (outage_row_of ⟨1, 0, 7200⟩).wan_down_start : Int) : ℚ) / 3600 :=
  stored_outage_duration_equation [⟨"P", 1, none, none⟩] [⟨1, 0, 7200⟩] emptyDb
    (outage_row_of ⟨1, 0, 7200⟩)
    (by
      have h : (process_outages_to_db_rebuild [⟨"P", 1, none, none⟩]
          [⟨1, 0, 7200⟩] emptyDb).outages = [outage_row_of ⟨1, 0, 7200⟩] := rfl
      rw [h]
      exact List.mem_singleton.mpr rfl)

/-- Claim C8 (counterexample): an input event whose end time precedes its
start time is inserted as-is: the stored row violates end >= start and
carries a negative duration.  The source computes the duration at line 589
and inserts every row at lines 883-893 without any end >= start check. -/
theorem outage_negative_duration_counterexample :
    ∃ row ∈ (process_outages_to_db_rebuild [⟨"P", 1, none, none⟩]
        [⟨1, 3600, 0⟩] emptyDb).outages,
      row.wan_down_end = some 0 ∧ row.wan_down_start = 3600 ∧ row.duration < 0 := by
  refine ⟨outage_row_of ⟨1, 3600, 0⟩, ?_, rfl, rfl, ?_⟩
  · have h : (process_outages_to_db_rebuild [⟨"P", 1, none, none⟩]
        [⟨1, 3600, 0⟩] emptyDb).outages = [outage_row_of ⟨1, 3600, 0⟩] := rfl
    rw [h]
    exact List.mem_singleton.mpr rfl
  · show duration_hours ⟨1, 3600, 0⟩ < 0
    unfold duration_hours
    norm_num

/-! Helper lemmas: the accumulator semantics of the network_hourly_outages
upsert. -/

lemma lookup_upsert_network_hourly_same (tbl : List NetworkHourlyRow)
    (n : Nat) (h : Int) (c : Nat) :
    lookup_network_hourly (upsert_network_hourly tbl n h c) n h
      = lookup_network_hourly tbl n h + c := by
  unfold upsert_network_hourly lookup_network_hourly
  by_cases hA : tbl.any (fun r => r.network_id == n && r.outage_hour == h) = true
  · rw [if_pos hA]
    have hpf : ((fun r : NetworkHourlyRow => r.network_id == n && r.outage_hour == h) ∘
        (fun r : NetworkHourlyRow =>
          if r.network_id == n && r.outage_hour == h then
            { r with outage_count := r.outage_count + c }
          else r))
        = (fun r : NetworkHourlyRow => r.network_id == n && r.outage_hour == h) := by
      funext a
      by_cases hk : (a.network_id == n && a.outage_hour == h) = true
      · simp only [Function.comp_apply, if_pos hk]
      · simp only [Function.comp_apply, if_neg hk]
    rw [List.find?_map, hpf]
    obtain ⟨r0, hr0, hp0⟩ := List.any_eq_true.mp hA
    cases hfind : tbl.find? (fun r => r.network_id == n && r.outage_hour == h) with
    | none => exact absurd hp0 (List.find?_eq_none.mp hfind r0 hr0)
    | some r1 =>
      have hp1 := List.find?_some hfind
      simp only [Option.map_some', Option.getD_some]
      rw [if_pos hp1]
  · rw [if_neg hA]
    rw [List.find?_append]
    have h0 : tbl.find? (fun r => r.network_id == n && r.outage_hour == h) = none :=
      List.find?_eq_none.mpr (fun x hx hpx => hA (List.any_eq_true.mpr ⟨x, hx, hpx⟩))
    rw [h0, List.find?_singleton]
    simp

lemma lookup_upsert_network_hourly_other (tbl : List NetworkHourlyRow)
    (n : Nat) (h : Int) (c : Nat) (n' : Nat) (h' : Int)
    (hne : ¬ (n = n' ∧ h = h')) :
    lookup_network_hourly (upsert_network_hourly tbl n h c) n' h'
      = lookup_network_hourly tbl n' h' := by
  unfold upsert_network_hourly lookup_network_hourly
  by_cases hA : tbl.any (fun r => r.network_id == n && r.outage_hour == h) = true
  · rw [if_pos hA]
    have hpf : ((fun r : NetworkHourlyRow => r.network_id == n' && r.outage_hour == h') ∘
        (fun r : NetworkHourlyRow =>
          if r.network_id == n && r.outage_hour == h then
            { r with outage_count := r.outage_count + c }
          else r))
        = (fun r : NetworkHourlyRow => r.network_id == n' && r.outage_hour == h') := by
      funext a
      by_cases hk : (a.network_id == n && a.outage_hour == h) = true
      · simp only [Function.comp_apply, if_pos hk]
      · simp only [Function.comp_apply, if_neg hk]
    rw [List.find?_map, hpf]
    cases hfind : tbl.find? (fun r => r.network_id == n' && r.outage_hour == h') with
    | none => rfl
    | some r1 =>
      have hp1 := List.find?_some hfind
      have hk1 : ¬ (r1.network_id == n && r1.outage_hour == h) = true := by
        intro hk
        simp only [Bool.and_eq_true, beq_iff_eq] at hk hp1
        exact hne ⟨hp1.1 ▸ hk.1.symm ▸ rfl, hp1.2 ▸ hk.2.symm ▸ rfl⟩
      simp only [Option.map_some', Option.getD_some]
      rw [if_neg hk1]
  · rw [if_neg hA]
    rw [List.find?_append, List.find?_singleton]
    have : ¬ ((⟨n, h, c⟩ : NetworkHourlyRow).network_id == n' &&
        (⟨n, h, c⟩ : NetworkHourlyRow).outage_hour == h') = true := by
      simp only [Bool.and_eq_true, beq_iff_eq]
      intro hk
      exact hne ⟨hk.1, hk.2⟩
    rw [if_neg this, Option.or_none]

lemma lookup_foldl_upserts (gs : List ((Nat × Int) × Nat)) :
    ∀ (tbl : List NetworkHourlyRow) (n : Nat) (h : Int),
      lookup_network_hourly
          (gs.foldl (fun t kc => upsert_network_hourly t kc.1.1 kc.1.2 kc.2) tbl) n h
        = lookup_network_hourly tbl n h
          + ((gs.filter (fun kc => kc.1.1 == n && kc.1.2 == h)).map
              (fun kc => kc.2)).sum := by
  induction gs with
  | nil => intro tbl n h; simp
  | cons kc rest ih =>
    intro tbl n h
    simp only [List.foldl_cons, List.filter_cons]
    by_cases hk : (kc.1.1 == n && kc.1.2 == h) = true
    · simp only [hk, if_true, List.map_cons, List.sum_cons]
      rw [ih]
      simp only [Bool.and_eq_true, beq_iff_eq] at hk
      rw [hk.1, hk.2, lookup_upsert_network_hourly_same]
      omega
    · simp only [if_neg hk]
      rw [ih, lookup_upsert_network_hourly_other]
      intro hcon
      exact hk (by simp [hcon.1, hcon.2])

lemma filter_eq_singleton_of_nodup {α : Type} (l : List α) (a : α) (p : α → Bool)
    (hn : l.Nodup) (ha : a ∈ l) (hp : ∀ x, p x = true ↔ x = a) :
    l.filter p = [a] := by
  induction l with
  | nil => cases ha
  | cons b rest ih =>
    obtain ⟨hbn, hrn⟩ := List.nodup_cons.mp hn
    rcases List.mem_cons.mp ha with hb | hb
    · subst hb
      rw [List.filter_cons_of_pos ((hp a).mpr rfl)]
      have : rest.filter p = [] := by
        rw [List.filter_eq_nil_iff]
        intro x hx hpx
        exact hbn (((hp x).mp hpx) ▸ hx)
      rw [this]
    · have hpb : ¬ p b = true := by
        intro hpb
        exact hbn (((hp b).mp hpb) ▸ hb)
      rw [List.filter_cons_of_neg hpb]
      exact ih hrn hb

lemma sum_filter_network_hour_groups (evs : List OutageEvent) (n : Nat) (h : Int) :
    (((network_hour_groups evs).filter (fun kc => kc.1.1 == n && kc.1.2 == h)).map
        (fun kc => kc.2)).sum = count_key evs n h := by
  unfold network_hour_groups
  rw [List.filter_map, List.map_map]
  by_cases hmem : ((n, h) : Nat × Int) ∈
      (evs.map (fun e => (e.network_id, floor_hour e.start_time))).dedup
  · have hfil : ((evs.map (fun e =>
        (e.network_id, floor_hour e.start_time))).dedup).filter
          ((fun kc : (Nat × Int) × Nat => kc.1.1 == n && kc.1.2 == h) ∘
            (fun k : Nat × Int => (k, (evs.filter (fun e =>
              e.network_id == k.1 && floor_hour e.start_time == k.2)).length)))
        = [(n, h)] := by
      apply filter_eq_singleton_of_nodup _ _ _ (List.nodup_dedup _) hmem
      intro x
      simp only [Function.comp_apply, Bool.and_eq_true, beq_iff_eq]
      constructor
      · intro hx
        exact Prod.ext hx.1 hx.2
      · intro hx
        subst hx
        exact ⟨rfl, rfl⟩
    rw [hfil]
    simp only [List.map_cons, List.map_nil, List.sum_cons, List.sum_nil,
      Function.comp_apply]
    rw [count_key, List.countP_eq_length_filter]
    omega
  · have hfil : ((evs.map (fun e =>
        (e.network_id, floor_hour e.start_time))).dedup).filter
          ((fun kc : (Nat × Int) × Nat => kc.1.1 == n && kc.1.2 == h) ∘
            (fun k : Nat × Int => (k, (evs.filter (fun e =>
              e.network_id == k.1 && floor_hour e.start_time == k.2)).length)))
        = [] := by
      rw [List.filter_eq_nil_iff]
      intro x hx hpx
      simp only [Function.comp_apply, Bool.and_eq_true, beq_iff_eq] at hpx
      exact hmem ((Prod.ext hpx.1 hpx.2 : x = (n, h)) ▸ hx)
    rw [hfil]
    have hck : count_key evs n h = 0 := by
      rw [count_key, List.countP_eq_zero]
      intro e he hpe
      simp only [Bool.and_eq_true, beq_iff_eq] at hpe
      refine hmem (List.mem_dedup.mpr (List.mem_map.mpr ⟨e, he, ?_⟩))
      exact Prod.ext hpe.1 hpe.2
    rw [hck]
    rfl

/-- One upsert phase adds exactly the per-key event count to the stored
accumulator. -/
lemma lookup_apply_network_hourly (evs : List OutageEvent)
    (tbl : List NetworkHourlyRow) (n : Nat) (h : Int) :
    lookup_network_hourly (apply_network_hourly evs tbl) n h
      = lookup_network_hourly tbl n h + count_key evs n h := by
  unfold apply_network_hourly
  rw [lookup_foldl_upserts, sum_filter_network_hour_groups]

lemma lookup_foldl_apply_network_hourly (pevs : String → List OutageEvent)
    (names : List String) :
    ∀ (tbl : List NetworkHourlyRow) (n : Nat) (h : Int),
      lookup_network_hourly
          (names.foldl (fun tb nm => apply_network_hourly (pevs nm) tb) tbl) n h
        = lookup_network_hourly tbl n h
          + (names.map (fun nm => count_key (pevs nm) n h)).sum := by
  induction names with
  | nil => intro tbl n h; simp
  | cons nm rest ih =>
    intro tbl n h
    simp only [List.foldl_cons, List.map_cons, List.sum_cons]
    rw [ih, lookup_apply_network_hourly]
    omega

/-- Claim C2 (counterexample): an outage event for a network that the
discovery file does not list is skipped, so the count in the run's input
file (1 event for network 2 in hour 0) disagrees with the stored rollup
(no row, value 0). -/
theorem network_hourly_skipped_network_counterexample :
    lookup_network_hourly
        (process_outages_to_db_rebuild [⟨"P", 1, none, none⟩] [⟨2, 0, 10⟩]
          emptyDb).network_hourly_outages 2 0 = 0 ∧
      count_key [⟨2, 0, 10⟩] 2 0 = 1 := by
  constructor
  · rfl
  · rfl

/-! Helper lemmas: the per-property partition of the processed events. -/

lemma loop_network_hourly_proj (events : List OutageEvent)
    (disc : List DiscoveryRow) (names : List String) :
    ∀ t : DbState,
      (names.foldl (process_property events disc) t).network_hourly_outages
        = names.foldl (fun tb nm => apply_network_hourly (pevs_of events disc nm) tb)
            t.network_hourly_outages := by
  induction names with
  | nil => intro t; rfl
  | cons nm rest ih =>
    intro t
    simp only [List.foldl_cons]
    rw [ih (process_property events disc t nm)]
    rfl

lemma networks_of_property_subset (disc : List DiscoveryRow) (nm : String) :
    ∀ i ∈ networks_of_property disc nm, i ∈ discovery_ids disc := by
  intro i hi
  unfold networks_of_property at hi
  unfold discovery_ids
  rw [List.mem_dedup] at hi ⊢
  obtain ⟨r, hr, hri⟩ := List.mem_map.mp hi
  exact List.mem_map.mpr ⟨r, (List.mem_filter.mp hr).1, hri⟩

lemma upsert_network_map_ids (ns : List NetworkRow) (nid : Nat) (pname : String)
    (c : Nat) :
    (upsert_network ns nid pname c).map (fun y => y.network_id)
      = if ns.any (fun n => n.network_id == nid) then
          ns.map (fun y => y.network_id)
        else ns.map (fun y => y.network_id) ++ [nid] := by
  unfold upsert_network
  by_cases hA : ns.any (fun n => n.network_id == nid) = true
  · rw [if_pos hA, if_pos hA, List.map_map]
    apply List.map_congr_left
    intro a _
    by_cases hk : (a.network_id == nid) = true
    · simp only [Function.comp_apply, if_pos hk]
    · simp only [Function.comp_apply, if_neg hk]
  · rw [if_neg hA, if_neg hA, List.map_append]
    rfl

lemma foldl_upsert_network_map_ids (nm : String) (f_cnt : Nat → Nat)
    (nids : List Nat) :
    ∀ (ns : List NetworkRow) (i : Nat),
      i ∈ (nids.foldl (fun a nid => upsert_network a nid nm (f_cnt nid)) ns).map
          (fun y => y.network_id) →
      i ∈ ns.map (fun y => y.network_id) ∨ i ∈ nids := by
  induction nids with
  | nil => intro ns i h; exact Or.inl h
  | cons nid rest ih =>
    intro ns i h
    simp only [List.foldl_cons] at h
    rcases ih _ i h with h' | h'
    · rw [upsert_network_map_ids] at h'
      by_cases hA : ns.any (fun n => n.network_id == nid) = true
      · rw [if_pos hA] at h'
        exact Or.inl h'
      · rw [if_neg hA] at h'
        rcases List.mem_append.mp h' with h2 | h2
        · exact Or.inl h2
        · right
          have h3 : i = nid := List.mem_singleton.mp h2
          simp [h3]
    · exact Or.inr (List.mem_cons_of_mem _ h')

lemma loop_networks_ids (events : List OutageEvent) (disc : List DiscoveryRow)
    (names : List String) :
    ∀ (t : DbState) (x : NetworkRow),
      x ∈ (names.foldl (process_property events disc) t).networks →
      x.network_id ∈ t.networks.map (fun y => y.network_id) ∨
        x.network_id ∈ discovery_ids disc := by
  induction names with
  | nil => intro t x h; exact Or.inl (List.mem_map_of_mem _ h)
  | cons nm rest ih =>
    intro t x h
    simp only [List.foldl_cons] at h
    rcases ih _ x h with h' | h'
    · have h'' : x.network_id ∈ ((networks_of_property disc nm).foldl
          (fun a nid => upsert_network a nid nm
            (((pevs_of events disc nm).filter
              (fun e => e.network_id == nid)).length)) t.networks).map
          (fun y => y.network_id) := h'
      rcases foldl_upsert_network_map_ids nm
          (fun nid => ((pevs_of events disc nm).filter
            (fun e => e.network_id == nid)).length)
          (networks_of_property disc nm) t.networks x.network_id h'' with h2 | h2
      · exact Or.inl h2
      · exact Or.inr (networks_of_property_subset disc nm _ h2)
    · exact Or.inr h'

lemma removal_pass_id_of_subset (disc : List DiscoveryRow) (X : DbState)
    (hsub : ∀ x ∈ X.networks, x.network_id ∈ discovery_ids disc) :
    removal_pass disc X = X := by
  unfold removal_pass
  dsimp only
  have h0 : (X.networks.map (fun n => n.network_id)).filter
      (fun i => ! (discovery_ids disc).contains i) = [] := by
    rw [List.filter_eq_nil_iff]
    intro i hi
    obtain ⟨x, hx, hxe⟩ := List.mem_map.mp hi
    simp [hxe ▸ hsub x hx]
  rw [h0]
  rfl

/-- After a rebuild run the network_hourly_outages table is exactly the
fold of the per-property upsert phases over the empty table (the removal
pass removes nothing, since every network of the run comes from the
discovery file). -/
lemma rebuild_network_hourly_eq (disc : List DiscoveryRow)
    (events : List OutageEvent) (s : DbState) :
    (process_outages_to_db_rebuild disc events s).network_hourly_outages
      = (property_names disc).foldl
          (fun tb nm => apply_network_hourly (pevs_of events disc nm) tb) [] := by
  have hsub : ∀ x ∈ (update_equipment_stats
      (run_discovery_loop disc events emptyDb)).networks,
      x.network_id ∈ discovery_ids disc := by
    intro x hx
    have hx0 : x ∈ (run_discovery_loop disc events emptyDb).networks := hx
    unfold run_discovery_loop at hx0
    rcases loop_networks_ids events disc (property_names disc) emptyDb x hx0 with
      h | h
    · exact absurd h (by simp [emptyDb])
    · exact h
  rw [rebuild_eq]
  show (removal_pass disc (update_equipment_stats
      (run_discovery_loop disc events emptyDb))).network_hourly_outages = _
  rw [removal_pass_id_of_subset disc _ hsub]
  show (run_discovery_loop disc events emptyDb).network_hourly_outages = _
  unfold run_discovery_loop
  rw [loop_network_hourly_proj]
  rfl

lemma sum_map_add_nat {α : Type} (l : List α) (f g : α → Nat) :
    (l.map (fun a => f a + g a)).sum = (l.map f).sum + (l.map g).sum := by
  induction l with
  | nil => rfl
  | cons a rest ih =>
    simp only [List.map_cons, List.sum_cons]
    rw [ih]
    omega

lemma sum_map_ite_one {α : Type} (l : List α) (p : α → Bool) :
    (l.map (fun a => if p a = true then 1 else 0)).sum = (l.filter p).length := by
  induction l with
  | nil => rfl
  | cons a rest ih =>
    simp only [List.map_cons, List.sum_cons, List.filter_cons]
    by_cases hp : p a = true
    · rw [if_pos hp, if_pos hp, List.length_cons, ih]
      omega
    · rw [if_neg hp, if_neg hp, ih]
      omega

lemma sum_map_ite_ite {α : Type} (l : List α) (K C : α → Bool) :
    (l.map (fun a => if K a = true then (if C a = true then 1 else 0) else 0)).sum
      = l.countP (fun a => K a && C a) := by
  induction l with
  | nil => rfl
  | cons a rest ih =>
    simp only [List.map_cons, List.sum_cons, List.countP_cons]
    rw [ih]
    have h1 : (if K a = true then (if C a = true then 1 else 0) else 0)
        = (if (K a && C a) = true then 1 else 0) := by
      cases hK : K a <;> cases hC : C a <;> simp
    rw [h1]
    omega

lemma countP_exchange {α β : Type} (names : List α) (evs : List β)
    (K : β → Bool) (P : α → β → Bool) :
    (names.map (fun nm => evs.countP (fun e => K e && P nm e))).sum
      = (evs.map (fun e => if K e = true
          then (names.filter (fun nm => P nm e)).length else 0)).sum := by
  induction evs with
  | nil => simp
  | cons e evs ih =>
    simp only [List.countP_cons, List.map_cons, List.sum_cons]
    rw [sum_map_add_nat names (fun nm => evs.countP (fun x => K x && P nm x))
      (fun nm => if (K e && P nm e) = true then 1 else 0)]
    rw [ih]
    have h2 : (names.map (fun nm => if (K e && P nm e) = true then 1 else 0)).sum
        = (if K e = true then (names.filter (fun nm => P nm e)).length else 0) := by
      cases hK : K e with
      | true =>
        simp only [hK, Bool.true_and, if_true]
        exact sum_map_ite_one names (fun nm => P nm e)
      | false =>
        simp only [hK, Bool.false_and]
        simp
    rw [h2]
    omega

lemma filter_property_names_of_mem (disc : List DiscoveryRow) (i : Nat)
    (hone : ∀ r1 ∈ disc, ∀ r2 ∈ disc,
      r1.eero_network_id = r2.eero_network_id → r1.mdu_name = r2.mdu_name) :
    ((property_names disc).filter
        (fun nm => (networks_of_property disc nm).contains i)).length
      = if (discovery_ids disc).contains i = true then 1 else 0 := by
  by_cases hc : (discovery_ids disc).contains i = true
  · rw [if_pos hc]
    have hi : i ∈ discovery_ids disc := by simpa using hc
    unfold discovery_ids at hi
    rw [List.mem_dedup] at hi
    obtain ⟨r0, hr0, hr0i⟩ := List.mem_map.mp hi
    have hiff : ∀ nm, ((networks_of_property disc nm).contains i) = true ↔
        nm = r0.mdu_name := by
      intro nm
      constructor
      · intro hnm
        have hmm : i ∈ networks_of_property disc nm := by simpa using hnm
        unfold networks_of_property at hmm
        rw [List.mem_dedup] at hmm
        obtain ⟨r, hrf, hri⟩ := List.mem_map.mp hmm
        obtain ⟨hrd, hrnm⟩ := List.mem_filter.mp hrf
        have hname := hone r hrd r0 hr0 (by rw [hri, hr0i])
        rw [← hname]
        exact (beq_iff_eq.mp hrnm).symm
      · intro hnm
        subst hnm
        have hmm : i ∈ networks_of_property disc r0.mdu_name := by
          unfold networks_of_property
          rw [List.mem_dedup]
          exact List.mem_map.mpr ⟨r0, List.mem_filter.mpr ⟨hr0, by simp⟩, hr0i⟩
        simpa using hmm
    have hnd : (property_names disc).Nodup := by
      unfold property_names
      exact (List.perm_insertionSort _ _).nodup_iff.mpr (List.nodup_dedup _)
    have hmemnm : r0.mdu_name ∈ property_names disc := by
      unfold property_names
      rw [(List.perm_insertionSort _ _).mem_iff, List.mem_dedup]
      exact List.mem_map.mpr ⟨r0, hr0, rfl⟩
    rw [filter_eq_singleton_of_nodup _ r0.mdu_name _ hnd hmemnm hiff]
    rfl
  · rw [if_neg hc]
    have h0 : (property_names disc).filter
        (fun nm => (networks_of_property disc nm).contains i) = [] := by
      rw [List.filter_eq_nil_iff]
      intro nm _ hp
      apply hc
      have hmm : i ∈ networks_of_property disc nm := by simpa using hp
      have h2 := networks_of_property_subset disc nm i hmm
      simpa using h2
    rw [h0]
    rfl

/-- Under the one-property-per-network shape of the discovery file, the
per-property event subsets partition the processed events. -/
lemma sum_count_key_pevs (disc : List DiscoveryRow) (events : List OutageEvent)
    (n : Nat) (h : Int)
    (hone : ∀ r1 ∈ disc, ∀ r2 ∈ disc,
      r1.eero_network_id = r2.eero_network_id → r1.mdu_name = r2.mdu_name) :
    ((property_names disc).map
        (fun nm => count_key (pevs_of events disc nm) n h)).sum
      = count_key (events.filter
          (fun e => (discovery_ids disc).contains e.network_id)) n h := by
  have h1 : ∀ nm : String, count_key (pevs_of events disc nm) n h
      = events.countP (fun e =>
          (e.network_id == n && floor_hour e.start_time == h) &&
            (networks_of_property disc nm).contains e.network_id) := by
    intro nm
    unfold count_key pevs_of
    rw [List.countP_filter]
  rw [List.map_congr_left (fun nm _ => h1 nm)]
  rw [countP_exchange (property_names disc) events
    (fun e => e.network_id == n && floor_hour e.start_time == h)
    (fun nm e => (networks_of_property disc nm).contains e.network_id)]
  rw [List.map_congr_left (fun (e : OutageEvent) _ => by
    rw [filter_property_names_of_mem disc e.network_id hone] :
    ∀ e ∈ events, _ = _)]
  rw [sum_map_ite_ite events
    (fun e => e.network_id == n && floor_hour e.start_time == h)
    (fun e => (discovery_ids disc).contains e.network_id)]
  unfold count_key
  rw [List.countP_filter]

/-- Claim C2 (amended): for every (network, hour) pair, after a rebuild
run the stored network_hourly_outages.outage_count equals the number of
PROCESSED outage events of that network whose start time floors to that
hour - the events whose network the discovery file lists (events of
unknown networks are skipped, which is what the counterexample exhibits);
each append-mode upsert phase adds its own per-key processed count, so
across append phases since the rebuild the value is the sum of their
counts and never decreases (retention and removal deletions, which the
claim itself excepts, are the only decreases).  The discovery-file
hypothesis states the global invariant that each network is listed under
one property. -/
theorem network_hourly_counts_processed_events (disc : List DiscoveryRow)
    (events : List OutageEvent) (s : DbState)
    (hone : ∀ r1 ∈ disc, ∀ r2 ∈ disc,
      r1.eero_network_id = r2.eero_network_id → r1.mdu_name = r2.mdu_name) :
    (∀ (n : Nat) (h : Int),
      lookup_network_hourly
          (process_outages_to_db_rebuild disc events s).network_hourly_outages n h
        = count_key (events.filter
            (fun e => (discovery_ids disc).contains e.network_id)) n h) ∧
    (∀ (tbl : List NetworkHourlyRow) (evs : List OutageEvent) (n : Nat) (h : Int),
      lookup_network_hourly tbl n h
        ≤ lookup_network_hourly (apply_network_hourly evs tbl) n h) ∧
    (∀ (runs : List (List OutageEvent)) (tbl : List NetworkHourlyRow)
        (n : Nat) (h : Int),
      lookup_network_hourly
          (runs.foldl (fun t evs => apply_network_hourly evs t) tbl) n h
        = lookup_network_hourly tbl n h
          + (runs.map (fun evs => count_key evs n h)).sum) := by
  refine ⟨?_, ?_, ?_⟩
  · intro n h
    rw [rebuild_network_hourly_eq]
    rw [lookup_foldl_apply_network_hourly (fun nm => pevs_of events disc nm)
      (property_names disc) [] n h]
    rw [sum_count_key_pevs disc events n h hone]
    have h0 : lookup_network_hourly [] n h = 0 := rfl
    omega
  · intro tbl evs n h
    rw [lookup_apply_network_hourly]
    omega
  · intro runs
    induction runs with
    | nil => intro tbl n h; simp
    | cons ev rest ih =>
      intro tbl n h
      simp only [List.foldl_cons, List.map_cons, List.sum_cons]
      rw [ih (apply_network_hourly ev tbl) n h, lookup_apply_network_hourly]
      omega

/-- Witness for the amended claim C2: one property with one network, two
events in hour 0; the stored rollup count for (1, 0) equals the processed
count 2. -/
theorem network_hourly_counts_processed_events_witness :
    (∀ r1 ∈ ([⟨"P", 1, none, none⟩] : List DiscoveryRow),
      ∀ r2 ∈ ([⟨"P", 1, none, none⟩] : List DiscoveryRow),
        r1.eero_network_id = r2.eero_network_id → r1.mdu_name = r2.mdu_name) ∧
    lookup_network_hourly
        (process_outages_to_db_rebuild [⟨"P", 1, none, none⟩]
          [⟨1, 30, 100⟩, ⟨1, 50, 200⟩] emptyDb).network_hourly_outages 1 0
      = count_key ([⟨1, 30, 100⟩, ⟨1, 50, 200⟩].filter
          (fun e => (discovery_ids [⟨"P", 1, none, none⟩]).contains e.network_id))
          1 0 :=
  ⟨by decide,
    (network_hourly_counts_processed_events [⟨"P", 1, none, none⟩]
      [⟨1, 30, 100⟩, ⟨1, 50, 200⟩] emptyDb (by decide)).1 1 0⟩

end MduLookingGlass
